import Mathlib

/-!
A shallow embedding of the Weighted Multi-Agent Signal Aggregation & Consensus
Engine.  Python floats are modelled as exact rationals (`ℚ`); the single
square-root that the code takes (`sqrt(10)` in the 10-day VaR scaling) is
modelled as `Real.sqrt`.  Dictionaries keyed by strings are modelled as
association lists, and Python's insertion-ordered `max(dict, key=...)` is
modelled by an explicit first-maximum scan in the key order BUY, SELL, HOLD.
-/

/-! ## Consensus arbiter (`WarRoomEngine._pm_arbitrate`, war_room_router.py) -/

/-- One agent vote as consumed by `_pm_arbitrate`: the `agent` id used for the
weight lookup, the raw `action` string, and the vote `confidence`. -/
structure Vote where
  agent : String
  action : String
  confidence : ℚ
deriving DecidableEq

/-- The engine's `self.vote_weights` table (war_room_router.py lines 109-119). -/
def voteWeights : List (String × ℚ) :=
  [("trader", 15/100), ("risk", 15/100), ("analyst", 12/100), ("macro", 14/100),
   ("institutional", 14/100), ("news", 14/100), ("chip_war", 14/100),
   ("dividend_risk", 2/100), ("pm", 0)]

/-- `self.vote_weights.get(agent, 0.1)`: dictionary lookup with default 0.1. -/
def lookupWeight (wt : List (String × ℚ)) (agent : String) : ℚ :=
  match wt.find? (fun p => p.1 == agent) with
  | some p => p.2
  | none => 1/10

/-- `action_mapping.get(raw_action, "HOLD")`: the fixed remapping table of
`_pm_arbitrate` (war_room_router.py lines 230-241), with default HOLD for any
unrecognized action. -/
def remapAction (a : String) : String :=
  if a = "BUY" then "BUY"
  else if a = "SELL" then "SELL"
  else if a = "HOLD" then "HOLD"
  else if a = "MAINTAIN" then "HOLD"
  else if a = "REDUCE" then "SELL"
  else if a = "INCREASE" then "BUY"
  else if a = "TRIM" then "SELL"
  else if a = "ADD" then "BUY"
  else if a = "DCA" then "BUY"
  else "HOLD"

/-- The `action_scores` dictionary `{"BUY": _, "SELL": _, "HOLD": _}`. -/
structure Scores where
  buy : ℚ
  sell : ℚ
  hold : ℚ
deriving DecidableEq

/-- `action_scores[a]` for a remapped action `a` (only BUY/SELL/HOLD occur). -/
def Scores.get (s : Scores) (a : String) : ℚ :=
  if a = "BUY" then s.buy else if a = "SELL" then s.sell else s.hold

/-- One iteration of the tally loop:
`action_scores[action_mapping.get(vote["action"], "HOLD")] += weight * confidence`. -/
def addVote (wt : List (String × ℚ)) (s : Scores) (v : Vote) : Scores :=
  let weight := lookupWeight wt v.agent
  let action := remapAction v.action
  if action = "BUY" then { s with buy := s.buy + weight * v.confidence }
  else if action = "SELL" then { s with sell := s.sell + weight * v.confidence }
  else { s with hold := s.hold + weight * v.confidence }

/-- The full tally loop of `_pm_arbitrate` starting from all-zero scores. -/
def tallyVotes (wt : List (String × ℚ)) (votes : List Vote) : Scores :=
  votes.foldl (addVote wt) ⟨0, 0, 0⟩

/-- `max(action_scores, key=action_scores.get)`: Python's `max` scans the keys
in insertion order BUY, SELL, HOLD and keeps the first key whose score is not
strictly exceeded later, so ties resolve by the priority BUY > SELL > HOLD. -/
def consensusActionOf (s : Scores) : String :=
  if s.sell > s.buy then (if s.hold > s.sell then "HOLD" else "SELL")
  else (if s.hold > s.buy then "HOLD" else "BUY")

/-- `sum(action_scores.values())`. -/
def totalScore (s : Scores) : ℚ := s.buy + s.sell + s.hold

/-- The dictionary returned by `_pm_arbitrate` (the `summary` string is
omitted; `vote_distribution` is the `action_scores` dictionary, taken as
all-zero in the early-return branch for an empty vote list, where the code
returns no distribution at all). -/
structure ConsensusResult where
  consensus_action : String
  consensus_confidence : ℚ
  vote_distribution : Scores
deriving DecidableEq

/-- `WarRoomEngine._pm_arbitrate` (war_room_router.py lines 213-269). -/
def pmArbitrate (wt : List (String × ℚ)) (votes : List Vote) : ConsensusResult :=
  if votes.isEmpty then ⟨"HOLD", 1/2, ⟨0, 0, 0⟩⟩
  else
    let s := tallyVotes wt votes
    let ca := consensusActionOf s
    let total := totalScore s
    ⟨ca, if total > 0 then s.get ca / total else 1/2, s⟩

/-- Specification-level per-action score: the sum over the votes whose
remapped action is `a` of `weight * confidence`. -/
def scoreSpec (wt : List (String × ℚ)) (votes : List Vote) (a : String) : ℚ :=
  ((votes.filter (fun v => remapAction v.action == a)).map
    (fun v => lookupWeight wt v.agent * v.confidence)).sum

/-! ## Chip war scorer (`ChipWarAgent._vote_for_nvidia`, chip_war_agent.py) -/

/-- A domain scorer's vote record: agent id, action, confidence and rationale
(the `chip_war_factors` map is omitted; the rationale keeps the fixed text of
the source f-strings with the interpolated numbers rendered by `toString`). -/
structure AgentVote where
  agent : String
  action : String
  confidence : ℚ
  reasoning : String
deriving DecidableEq

/-- `ChipWarAgent._vote_for_nvidia` (chip_war_agent.py lines 258-309):
THREAT → SELL at `min(0.75, (disruption_score - 100)/100)`,
MONITORING → HOLD at 0.60, otherwise (SAFE) → BUY at
`min(0.85, 1.0 - disruption_score/200)`. -/
def voteForNvidia (verdict : String) (disruptionScore : ℚ) : AgentVote :=
  if verdict = "THREAT" then
    { agent := "chip_war", action := "SELL",
      confidence := min (3/4) ((disruptionScore - 100) / 100),
      reasoning := "Nvidia CUDA moat under THREAT (disruption: " ++ (toString disruptionScore
        ++ "). TorchTPU showing strong market disruption potential. Recommend REDUCING Nvidia exposure.") }
  else if verdict = "MONITORING" then
    { agent := "chip_war", action := "HOLD", confidence := 3/5,
      reasoning := "Nvidia CUDA moat needs MONITORING (disruption: " ++ (toString disruptionScore
        ++ "). TorchTPU progress uncertain, maintain current position.") }
  else
    { agent := "chip_war", action := "BUY",
      confidence := min (17/20) (1 - disruptionScore / 200),
      reasoning := "Nvidia CUDA moat remains SAFE (disruption: " ++ (toString disruptionScore
        ++ "). TorchTPU not gaining traction, ecosystem advantage intact.") }

/-! ## PEG ratio calculator (`AnalystAgent._calculate_peg_ratio`, analyst_agent.py) -/

/-- Result of the PEG calculation (the Korean `interpretation` string is
omitted; `peg` models the returned `peg_ratio` value). -/
structure PegResult where
  peg : ℚ
  valuation : String
deriving DecidableEq

/-- `AnalystAgent._calculate_peg_ratio` (analyst_agent.py lines 250-312):
growth is converted to a percentage; below 1.0 the sentinel 999.0 with
valuation N/A is returned, otherwise `peg = pe / growth_pct` is classified by
the strict bands `< 0.5 / < 1.0 / < 1.5 / < 2.0 / else`. -/
def calculatePegRatio (peRatio earningsGrowthRate : ℚ) : PegResult :=
  let pct := earningsGrowthRate * 100
  if pct < 1 then ⟨999, "N/A"⟩
  else
    let peg := peRatio / pct
    if peg < 1/2 then ⟨peg, "EXTREMELY_UNDERVALUED"⟩
    else if peg < 1 then ⟨peg, "UNDERVALUED"⟩
    else if peg < 3/2 then ⟨peg, "FAIR"⟩
    else if peg < 2 then ⟨peg, "SLIGHTLY_OVERVALUED"⟩
    else ⟨peg, "OVERVALUED"⟩

/-! ## CDS premium analysis (`RiskAgent._analyze_cds_premium`, risk_agent.py) -/

/-- Result of the CDS spread classification (reasoning string omitted). -/
structure CdsAnalysis where
  credit_risk_level : String
  risk_score : ℚ
  confidence_modifier : ℚ
  action_impact : String
deriving DecidableEq

/-- `RiskAgent._analyze_cds_premium` (risk_agent.py lines 487-552): the spread
in bps is classified LOW / MODERATE / HIGH / CRITICAL with the fixed
confidence modifiers 0.1 / 0.0 / -0.15 / -0.25. -/
def analyzeCdsPremium (cdsSpread : ℚ) : CdsAnalysis :=
  if cdsSpread < 100 then ⟨"LOW", min 10 (cdsSpread / 100 * 3), 1/10, "POSITIVE"⟩
  else if cdsSpread < 200 then ⟨"MODERATE", 3 + (cdsSpread - 100) / 100 * 3, 0, "NEUTRAL"⟩
  else if cdsSpread < 500 then ⟨"HIGH", 6 + (cdsSpread - 200) / 300 * 3, -(3/20), "NEGATIVE"⟩
  else ⟨"CRITICAL", min 10 (9 + (cdsSpread - 500) / 500), -(1/4), "NEGATIVE"⟩

/-! ## Historical VaR/CVaR (`RiskAgent._calculate_var`, risk_agent.py) -/

/-- Ascending insertion into a sorted list, for `numpy`'s internal sort. -/
def insertAsc (x : ℚ) : List ℚ → List ℚ
  | [] => [x]
  | y :: ys => if x ≤ y then x :: y :: ys else y :: insertAsc x ys

/-- Ascending insertion sort. -/
def sortAsc : List ℚ → List ℚ
  | [] => []
  | x :: xs => insertAsc x (sortAsc xs)

/-- `np.percentile(a, q)` with the default linear interpolation: on the
ascending-sorted data, `rank = q/100 * (n-1)`, and the result interpolates
between the neighbouring order statistics; at the top index the upper
neighbour is clipped (its weight is 0 there). -/
def percentile (xs : List ℚ) (q : ℚ) : ℚ :=
  let sorted := sortAsc xs
  let n := sorted.length
  if n = 0 then 0
  else
    let rank : ℚ := q / 100 * ((n : ℚ) - 1)
    let lower : ℕ := (⌊rank⌋).toNat
    let frac : ℚ := rank - (lower : ℚ)
    let lo := sorted.getD lower 0
    let hi := sorted.getD (lower + 1) lo
    lo + frac * (hi - lo)

/-- Result of `_calculate_var`.  `insufficient` is true exactly when the code
returns the Korean data-insufficiency interpretation string; `var_10day`,
which multiplies by the float `sqrt(10)`, is modelled separately as a real
number by `var10day` below. -/
structure VarResult where
  var_1day : ℚ
  cvar : ℚ
  insufficient : Bool
deriving DecidableEq

/-- `RiskAgent._calculate_var` (risk_agent.py lines 405-485): below 30
observations everything is 0.0 with the insufficiency marker; otherwise the
1-day VaR is the `(1 - confidence_level) * 100` percentile of the sample and
the CVaR is the mean of the returns at or below it (the tail is the
``returns_array <= var_1day`` selection; when it is empty the code falls back
to `var_1day`). -/
def calculateVar (returns : List ℚ) (confidenceLevel : ℚ) : VarResult :=
  if returns.length < 30 then ⟨0, 0, true⟩
  else
    let varPercentile := (1 - confidenceLevel) * 100
    let var1 := percentile returns varPercentile
    let tail := returns.filter (fun r => r ≤ var1)
    let cvar := if tail.length = 0 then var1 else tail.sum / (tail.length : ℚ)
    ⟨var1, cvar, false⟩

/-- `var_10day = var_1day * np.sqrt(10)` (risk_agent.py line 456), with the
float square root modelled as the real `Real.sqrt 10`. -/
noncomputable def var10day (returns : List ℚ) (confidenceLevel : ℚ) : ℝ :=
  ((calculateVar returns confidenceLevel).var_1day : ℝ) * Real.sqrt 10

/-! ## Risk scorer decision flow (`RiskAgent._analyze_with_real_data`,
risk_agent.py lines 63-222).

The mutable `(action, confidence, confidence_boost)` triple of the Python
function is threaded through one step function per source block.  The Sharpe
ratio, whose value involves a floating square root, is abstracted as a
function parameter `sharpeOf` standing for `_calculate_sharpe_ratio`; every
theorem below quantifies over it.  Reasoning strings and the `risk_factors`
map are omitted. -/

/-- The mutable local state of `_analyze_with_real_data`. -/
@[ext]
structure RiskState where
  action : String
  confidence : ℚ
  boost : ℚ
deriving DecidableEq

/-- The CDS block (risk_agent.py lines 91-115): CRITICAL sets SELL at 0.90,
HIGH sets SELL at 0.80 when the action is not already SELL, and LOW/MODERATE
only add the fixed confidence modifier to the boost. -/
def cdsStep (cdsSpread : Option ℚ) (st : RiskState) : RiskState :=
  match cdsSpread with
  | none => st
  | some s =>
    let c := analyzeCdsPremium s
    if c.credit_risk_level = "CRITICAL" then ⟨"SELL", 9/10, st.boost⟩
    else if c.credit_risk_level = "HIGH" then
      (if st.action ≠ "SELL" then ⟨"SELL", 8/10, st.boost⟩ else st)
    else ⟨st.action, st.confidence, st.boost + c.confidence_modifier⟩

/-- The recurring guard
`cds_analysis is None or credit_risk_level not in ["CRITICAL", "HIGH"]`. -/
def cdsGuard (cdsSpread : Option ℚ) : Bool :=
  match cdsSpread with
  | none => true
  | some s =>
    ((analyzeCdsPremium s).credit_risk_level != "CRITICAL")
      && ((analyzeCdsPremium s).credit_risk_level != "HIGH")

/-- The Sharpe block (risk_agent.py lines 118-133), guarded by `cdsGuard`. -/
def sharpeStep (guard : Bool) (sharpe : Option ℚ) (st : RiskState) : RiskState :=
  match sharpe with
  | none => st
  | some sr =>
    if guard then
      if sr < 1/2 then (if st.action ≠ "SELL" then ⟨"SELL", 17/20, st.boost⟩ else st)
      else if sr > 3/2 then ⟨st.action, st.confidence, st.boost + 3/20⟩
      else st
    else st

/-- The VaR block (risk_agent.py lines 136-158), guarded by `cdsGuard`. -/
def varStep (guard : Bool) (var : Option VarResult) (st : RiskState) : RiskState :=
  match var with
  | none => st
  | some va =>
    if guard then
      if va.var_1day < -(1/20) then (if st.action ≠ "SELL" then ⟨"SELL", 22/25, st.boost⟩ else st)
      else if va.cvar < -(1/10) then ⟨st.action, st.confidence, st.boost - 1/10⟩
      else if va.var_1day > -(1/50) then ⟨st.action, st.confidence, st.boost + 1/20⟩
      else st
    else st

/-- The risk-based decision cascade (risk_agent.py lines 160-203), guarded by
`cdsGuard`; the Python truthiness test `if sharpe_ratio and sharpe_ratio > x`
is equivalent to `sr > x` for the positive thresholds used. -/
def decisionStep (guard : Bool) (sharpe : Option ℚ)
    (volatility beta maxDrawdown : ℚ) (st : RiskState) : RiskState :=
  if guard then
    if volatility > 2/5 ∨ maxDrawdown < -(1/10) then ⟨"SELL", 17/20, st.boost⟩
    else if volatility > 3/10 ∧ beta > 3/2 then ⟨"HOLD", 3/4, st.boost⟩
    else if volatility < 1/5 ∧ maxDrawdown > -(1/20) then
      ⟨"BUY",
        (match sharpe with
         | some sr => if sr > 3/2 then min (19/20) (87/100 + 1/10) else 87/100
         | none => 87/100), st.boost⟩
    else
      ⟨st.action, 13/20,
        (match sharpe with
         | some sr => if sr > 1 then st.boost + 1/10 else st.boost
         | none => st.boost)⟩
  else st

/-- The pre-clamp state computed by `_analyze_with_real_data`: initial state
HOLD at 0.5 with zero boost, then the CDS, Sharpe, VaR and decision blocks in
source order.  Sharpe is computed when at least 20 returns are supplied, the
VaR when at least 30 are (at the default confidence level 0.95). -/
def riskDecision (sharpeOf : List ℚ → ℚ) (volatility beta maxDrawdown : ℚ)
    (returns : List ℚ) (cdsSpread : Option ℚ) : RiskState :=
  let sharpe : Option ℚ := if 20 ≤ returns.length then some (sharpeOf returns) else none
  let var : Option VarResult :=
    if 30 ≤ returns.length then some (calculateVar returns (19/20)) else none
  let g := cdsGuard cdsSpread
  decisionStep g sharpe volatility beta maxDrawdown
    (varStep g var (sharpeStep g sharpe (cdsStep cdsSpread ⟨"HOLD", 1/2, 0⟩)))

/-- The action/confidence pair returned by the risk scorer. -/
structure RiskVote where
  action : String
  confidence : ℚ
deriving DecidableEq

/-- The returned vote: `confidence = min(0.95, confidence + confidence_boost)`
(risk_agent.py line 205) applied to the pre-clamp state. -/
def riskAnalyze (sharpeOf : List ℚ → ℚ) (volatility beta maxDrawdown : ℚ)
    (returns : List ℚ) (cdsSpread : Option ℚ) : RiskVote :=
  let st := riskDecision sharpeOf volatility beta maxDrawdown returns cdsSpread
  ⟨st.action, min (19/20) (st.confidence + st.boost)⟩

/-! ## Pivot support/resistance (`TraderAgent._find_support_resistance`,
trader_agent.py lines 378-452). -/

/-- One OHLCV bar (only the fields the function reads). -/
structure Bar where
  high : ℚ
  low : ℚ
  close : ℚ
deriving DecidableEq

/-- `highs = [bar['high'] for bar in ohlcv_data]`. -/
def highsOf (bars : List Bar) : List ℚ := bars.map (fun b => b.high)

/-- `lows = [bar['low'] for bar in ohlcv_data]`. -/
def lowsOf (bars : List Bar) : List ℚ := bars.map (fun b => b.low)

/-- The pivot-high test at index `i`: the five bars on each side
(`highs[i-5:i]` and `highs[i+1:i+6]`, both full slices for the interior
indices the loop visits) are all strictly below `highs[i]`. -/
def isPivotHigh (hs : List ℚ) (i : ℕ) : Bool :=
  ((List.range' (i - 5) 5).all fun j => decide (hs.getD j 0 < hs.getD i 0))
    && ((List.range' (i + 1) 5).all fun j => decide (hs.getD j 0 < hs.getD i 0))

/-- The pivot-low test at index `i` (`lows[i]` strictly below both windows). -/
def isPivotLow (ls : List ℚ) (i : ℕ) : Bool :=
  ((List.range' (i - 5) 5).all fun j => decide (ls.getD i 0 < ls.getD j 0))
    && ((List.range' (i + 1) 5).all fun j => decide (ls.getD i 0 < ls.getD j 0))

/-- `range(5, len(ohlcv_data) - 5)`: the interior indices the loop visits. -/
def pivotIdxs (n : ℕ) : List ℕ := List.range' 5 (n - 10)

/-- The `resistance_levels` list accumulated by the detection loop, in index
order. -/
def resistanceRaw (bars : List Bar) : List ℚ :=
  ((pivotIdxs bars.length).filter (fun i => isPivotHigh (highsOf bars) i)).map
    (fun i => (highsOf bars).getD i 0)

/-- The `support_levels` list accumulated by the detection loop. -/
def supportRaw (bars : List Bar) : List ℚ :=
  ((pivotIdxs bars.length).filter (fun i => isPivotLow (lowsOf bars) i)).map
    (fun i => (lowsOf bars).getD i 0)

/-- Descending insertion into a sorted list. -/
def insertDesc (x : ℚ) : List ℚ → List ℚ
  | [] => [x]
  | y :: ys => if y < x then x :: y :: ys else y :: insertDesc x ys

/-- Descending insertion sort. -/
def sortDesc : List ℚ → List ℚ
  | [] => []
  | x :: xs => insertDesc x (sortDesc xs)

/-- `sorted(set(levels), reverse=True)[:3]`: deduplicate, sort descending and
keep the first three — the three largest distinct levels. -/
def topLevels (xs : List ℚ) : List ℚ := (sortDesc xs.dedup).take 3

/-- Python `max` over a possibly-empty list (`max(xs) if xs else None`). -/
def maxQ : List ℚ → Option ℚ
  | [] => none
  | x :: xs =>
    match maxQ xs with
    | none => some x
    | some m => some (max x m)

/-- Python `min` over a possibly-empty list (`min(xs) if xs else None`). -/
def minQ : List ℚ → Option ℚ
  | [] => none
  | x :: xs =>
    match minQ xs with
    | none => some x
    | some m => some (min x m)

/-- `current_price = ohlcv_data[-1]['close']`. -/
def lastClose (bars : List Bar) : ℚ :=
  match bars.getLast? with
  | some b => b.close
  | none => 0

/-- The result record of `_find_support_resistance` (the two percentage
distances, derived one-to-one from the nearest levels, are omitted). -/
structure SRResult where
  support_levels : List ℚ
  resistance_levels : List ℚ
  nearest_support : Option ℚ
  nearest_resistance : Option ℚ
deriving DecidableEq

/-- `TraderAgent._find_support_resistance`: fewer than 11 bars yields the
empty sentinel record; otherwise the kept levels are `topLevels` of the raw
pivot lists, and the nearest support/resistance are the maximum kept support
below / minimum kept resistance above the last close. -/
def findSupportResistance (bars : List Bar) : SRResult :=
  if bars.length < 11 then ⟨[], [], none, none⟩
  else
    let res := topLevels (resistanceRaw bars)
    let sup := topLevels (supportRaw bars)
    let price := lastClose bars
    let supBelow := sup.filter (fun s => s < price)
    let resAbove := res.filter (fun r => price < r)
    ⟨sup, res, maxQ supBelow, minQ resAbove⟩

/-- A flat bar at the baseline high/low 1 with close 2. -/
def flatBar : Bar := ⟨1, 1, 2⟩

/-- A bar spiking to the given high (low stays at the baseline). -/
def spikeBar (h : ℚ) : Bar := ⟨h, 1, 2⟩

/-- 29 bars whose highs are the baseline 1 except for isolated spikes of
10, 9, 8, 7 at indices 5, 11, 17, 23: four pivot highs in decreasing value
order, the most recent one being the smallest. -/
def exBars : List Bar :=
  [flatBar, flatBar, flatBar, flatBar, flatBar,
   spikeBar 10,
   flatBar, flatBar, flatBar, flatBar, flatBar,
   spikeBar 9,
   flatBar, flatBar, flatBar, flatBar, flatBar,
   spikeBar 8,
   flatBar, flatBar, flatBar, flatBar, flatBar,
   spikeBar 7,
   flatBar, flatBar, flatBar, flatBar, flatBar]

/-! ### Tally lemmas -/

lemma remapAction_cases (a : String) :
    remapAction a = "BUY" ∨ remapAction a = "SELL" ∨ remapAction a = "HOLD" := by
  unfold remapAction
  split_ifs <;> simp

lemma addVote_buy (wt : List (String × ℚ)) (s : Scores) (v : Vote) :
    (addVote wt s v).buy =
      s.buy + (if remapAction v.action = "BUY" then lookupWeight wt v.agent * v.confidence else 0) := by
  unfold addVote
  rcases remapAction_cases v.action with h | h | h <;> simp [h]

lemma addVote_sell (wt : List (String × ℚ)) (s : Scores) (v : Vote) :
    (addVote wt s v).sell =
      s.sell + (if remapAction v.action = "SELL" then lookupWeight wt v.agent * v.confidence else 0) := by
  unfold addVote
  rcases remapAction_cases v.action with h | h | h <;> simp [h]

lemma addVote_hold (wt : List (String × ℚ)) (s : Scores) (v : Vote) :
    (addVote wt s v).hold =
      s.hold + (if remapAction v.action = "HOLD" then lookupWeight wt v.agent * v.confidence else 0) := by
  unfold addVote
  rcases remapAction_cases v.action with h | h | h <;> simp [h]

lemma scoreSpec_cons (wt : List (String × ℚ)) (v : Vote) (votes : List Vote) (a : String) :
    scoreSpec wt (v :: votes) a =
      (if remapAction v.action = a then lookupWeight wt v.agent * v.confidence else 0)
        + scoreSpec wt votes a := by
  unfold scoreSpec
  by_cases h : remapAction v.action = a <;> simp [h]

lemma tally_go (wt : List (String × ℚ)) (votes : List Vote) (init : Scores) :
    (votes.foldl (addVote wt) init).buy = init.buy + scoreSpec wt votes "BUY"
    ∧ (votes.foldl (addVote wt) init).sell = init.sell + scoreSpec wt votes "SELL"
    ∧ (votes.foldl (addVote wt) init).hold = init.hold + scoreSpec wt votes "HOLD" := by
  induction votes generalizing init with
  | nil => simp [scoreSpec]
  | cons v vs ih =>
    have h := ih (addVote wt init v)
    refine ⟨?_, ?_, ?_⟩ <;>
      simp only [List.foldl_cons, h.1, h.2.1, h.2.2, scoreSpec_cons,
        addVote_buy, addVote_sell, addVote_hold] <;> ring

lemma tallyVotes_buy (wt : List (String × ℚ)) (votes : List Vote) :
    (tallyVotes wt votes).buy = scoreSpec wt votes "BUY" := by
  have h := (tally_go wt votes ⟨0, 0, 0⟩).1
  simpa [tallyVotes] using h

lemma tallyVotes_sell (wt : List (String × ℚ)) (votes : List Vote) :
    (tallyVotes wt votes).sell = scoreSpec wt votes "SELL" := by
  have h := (tally_go wt votes ⟨0, 0, 0⟩).2.1
  simpa [tallyVotes] using h

lemma tallyVotes_hold (wt : List (String × ℚ)) (votes : List Vote) :
    (tallyVotes wt votes).hold = scoreSpec wt votes "HOLD" := by
  have h := (tally_go wt votes ⟨0, 0, 0⟩).2.2
  simpa [tallyVotes] using h

/-! ### Helper lemmas for the scorer invariants -/

lemma append_ne_empty_left (s t : String) (h : s.length ≠ 0) : s ++ t ≠ "" := by
  intro he
  apply h
  have hl := congrArg String.length he
  rw [String.length_append] at hl
  simpa using Nat.eq_zero_of_add_eq_zero_right hl

lemma lookupWeight_nonneg (wt : List (String × ℚ)) (hw : ∀ p ∈ wt, 0 ≤ p.2)
    (agent : String) : 0 ≤ lookupWeight wt agent := by
  unfold lookupWeight
  cases h : wt.find? (fun p => p.1 == agent) with
  | none => norm_num
  | some p => exact hw p (List.mem_of_find?_eq_some h)

lemma scoreSpec_nonneg (wt : List (String × ℚ)) (votes : List Vote)
    (hv : ∀ v ∈ votes, 0 ≤ v.confidence) (hw : ∀ p ∈ wt, 0 ≤ p.2) (a : String) :
    0 ≤ scoreSpec wt votes a := by
  unfold scoreSpec
  apply List.sum_nonneg
  intro x hx
  simp only [List.mem_map, List.mem_filter] at hx
  obtain ⟨v, ⟨hvmem, _⟩, rfl⟩ := hx
  exact mul_nonneg (lookupWeight_nonneg wt hw v.agent) (hv v hvmem)

/-! ## Claim theorems -/

/-- C2: the arbiter's action remapping is the fixed table MAINTAIN→HOLD,
REDUCE→SELL, TRIM→SELL, INCREASE→BUY, ADD→BUY, DCA→BUY with BUY/SELL/HOLD
mapping to themselves; every string outside the table maps to HOLD; the range
is always {BUY, SELL, HOLD} and the map is idempotent. -/
theorem remapAction_table_spec :
    (∀ x : String,
        x ∉ (["BUY", "SELL", "HOLD", "MAINTAIN", "REDUCE", "INCREASE", "TRIM",
              "ADD", "DCA"] : List String) → remapAction x = "HOLD")
    ∧ (∀ x : String,
        remapAction x = "BUY" ∨ remapAction x = "SELL" ∨ remapAction x = "HOLD")
    ∧ (∀ x : String, remapAction (remapAction x) = remapAction x)
    ∧ remapAction "MAINTAIN" = "HOLD" ∧ remapAction "REDUCE" = "SELL"
    ∧ remapAction "TRIM" = "SELL" ∧ remapAction "INCREASE" = "BUY"
    ∧ remapAction "ADD" = "BUY" ∧ remapAction "DCA" = "BUY"
    ∧ remapAction "BUY" = "BUY" ∧ remapAction "SELL" = "SELL"
    ∧ remapAction "HOLD" = "HOLD" := by
  refine ⟨?_, remapAction_cases, ?_, ?_, ?_, ?_, ?_, ?_, ?_, ?_, ?_, ?_⟩
  · intro x hx
    simp only [List.mem_cons, List.not_mem_nil, or_false, not_or] at hx
    obtain ⟨h1, h2, h3, h4, h5, h6, h7, h8, h9⟩ := hx
    simp [remapAction, h1, h2, h3, h4, h5, h6, h7, h8, h9]
  · intro x
    rcases remapAction_cases x with h | h | h <;> rw [h] <;> decide
  all_goals decide

/-- C2 witness: an unrecognized action string remaps to HOLD. -/
theorem remapAction_table_spec_witness : remapAction "LEVERAGE_UP" = "HOLD" :=
  remapAction_table_spec.1 "LEVERAGE_UP" (by decide)

/-- C9: the arbiter is a pure function of the vote list and weight table, so
two runs on identical inputs produce identical consensus results. -/
theorem pm_arbitrate_deterministic (wt wt' : List (String × ℚ))
    (votes votes' : List Vote) (hw : wt = wt') (hv : votes = votes') :
    pmArbitrate wt votes = pmArbitrate wt' votes' := by
  subst hw; subst hv; rfl

/-- C9 witness: determinism at a concrete vote list and weight table. -/
theorem pm_arbitrate_deterministic_witness :
    pmArbitrate voteWeights [⟨"trader", "BUY", 4/5⟩]
      = pmArbitrate voteWeights [⟨"trader", "BUY", 4/5⟩] :=
  pm_arbitrate_deterministic voteWeights voteWeights _ _ rfl rfl

/-- C3 counterexample: one vote with confidence 0 is a non-empty vote list
whose total weighted score is 0, yet the arbiter returns consensus action BUY
(the first key of the score dictionary), not HOLD, with confidence 0.5. -/
theorem pm_zero_total_counterexample :
    totalScore (tallyVotes voteWeights [⟨"trader", "BUY", 0⟩]) = 0
    ∧ (pmArbitrate voteWeights [⟨"trader", "BUY", 0⟩]).consensus_action = "BUY"
    ∧ (pmArbitrate voteWeights [⟨"trader", "BUY", 0⟩]).consensus_action ≠ "HOLD"
    ∧ (pmArbitrate voteWeights [⟨"trader", "BUY", 0⟩]).consensus_confidence = 1/2 := by
  refine ⟨?_, ?_, ?_, ?_⟩ <;>
    norm_num [pmArbitrate, tallyVotes, addVote, remapAction, lookupWeight, voteWeights,
      consensusActionOf, totalScore, Scores.get, List.find?]
  decide

/-- C3 (amended): an empty vote list yields HOLD at confidence 0.5; a
non-empty vote list in which every vote has zero confidence yields confidence
0.5 but consensus action BUY (the argmax tie-break over all-zero scores), not
HOLD. -/
theorem pm_zero_total_default (wt : List (String × ℚ)) (votes : List Vote)
    (hz : ∀ v ∈ votes, v.confidence = 0) :
    (pmArbitrate wt []).consensus_action = "HOLD"
    ∧ (pmArbitrate wt []).consensus_confidence = 1/2
    ∧ (votes ≠ [] →
        (pmArbitrate wt votes).consensus_action = "BUY"
        ∧ (pmArbitrate wt votes).consensus_confidence = 1/2) := by
  refine ⟨rfl, rfl, fun hne => ?_⟩
  have h0 : ∀ a, scoreSpec wt votes a = 0 := by
    intro a
    unfold scoreSpec
    apply List.sum_eq_zero
    intro x hx
    simp only [List.mem_map, List.mem_filter] at hx
    obtain ⟨v, ⟨hv, _⟩, rfl⟩ := hx
    rw [hz v hv, mul_zero]
  have hb := tallyVotes_buy wt votes
  have hs := tallyVotes_sell wt votes
  have hh := tallyVotes_hold wt votes
  rw [h0] at hb hs hh
  have hemp : votes.isEmpty = false := by
    cases votes with
    | nil => exact absurd rfl hne
    | cons v vs => rfl
  constructor
  · simp [pmArbitrate, hemp, consensusActionOf, hb, hs, hh]
  · simp [pmArbitrate, hemp, consensusActionOf, totalScore, Scores.get, hb, hs, hh]

/-- C3 witness: the amended behaviour at a concrete zero-confidence vote. -/
theorem pm_zero_total_default_witness :
    (pmArbitrate voteWeights [⟨"risk", "SELL", 0⟩]).consensus_action = "BUY"
    ∧ (pmArbitrate voteWeights [⟨"risk", "SELL", 0⟩]).consensus_confidence = 1/2 :=
  (pm_zero_total_default voteWeights [⟨"risk", "SELL", 0⟩] (by decide)).2.2 (by decide)

/-- C6: at the failing input pe=60, growth=0.40 the PEG calculator computes
the documented value 1.5 but classifies it SLIGHTLY_OVERVALUED, contradicting
the docstring's own example band (1.0–1.5 fair, with 60/40 = 1.5 listed as
fair); the other documented examples hold: PEG(25, 0.30) = 5/6 is
UNDERVALUED, and growth below 1% yields the 999.0 sentinel with N/A. -/
theorem peg_examples :
    calculatePegRatio 60 (2/5) = ⟨3/2, "SLIGHTLY_OVERVALUED"⟩
    ∧ ("SLIGHTLY_OVERVALUED" : String) ≠ "FAIR"
    ∧ calculatePegRatio 25 (3/10) = ⟨5/6, "UNDERVALUED"⟩
    ∧ calculatePegRatio 60 (1/200) = ⟨999, "N/A"⟩ := by
  refine ⟨by norm_num [calculatePegRatio], by decide, by norm_num [calculatePegRatio],
    by norm_num [calculatePegRatio]⟩

/-- C4 counterexample: the NVDA chip-war scorer invoked with verdict THREAT
and disruption score 50 returns confidence −0.5, outside [0, 1]: the returned
confidence is not clamped below. -/
theorem nvidia_confidence_counterexample :
    (voteForNvidia "THREAT" 50).confidence = -(1/2)
    ∧ ¬ (0 ≤ (voteForNvidia "THREAT" 50).confidence) := by
  constructor <;> norm_num [voteForNvidia]

/-- C4 (amended): the NVDA chip-war scorer always returns a canonical action
and a non-empty rationale, and its confidence never exceeds 0.85; but the
confidence is only capped above, not clamped to [0, 1] — it lies in [0, 1]
when the disruption score is consistent with the verdict band (THREAT with
score ≥ 100, or SAFE with score ≤ 200). -/
theorem voteForNvidia_invariants (verdict : String) (d : ℚ) :
    (voteForNvidia verdict d).action ∈ (["BUY", "SELL", "HOLD"] : List String)
    ∧ (voteForNvidia verdict d).reasoning ≠ ""
    ∧ (voteForNvidia verdict d).confidence ≤ 17/20
    ∧ (verdict = "THREAT" → 100 ≤ d →
        0 ≤ (voteForNvidia verdict d).confidence ∧ (voteForNvidia verdict d).confidence ≤ 1)
    ∧ (verdict ≠ "THREAT" → verdict ≠ "MONITORING" → d ≤ 200 →
        0 ≤ (voteForNvidia verdict d).confidence ∧ (voteForNvidia verdict d).confidence ≤ 1) := by
  unfold voteForNvidia
  split_ifs with h1 h2
  · refine ⟨by simp, append_ne_empty_left _ _ (by decide), ?_, ?_, ?_⟩
    · exact le_trans (min_le_left _ _) (by norm_num)
    · intro _ hd
      constructor
      · exact le_min (by norm_num) (div_nonneg (by linarith) (by norm_num))
      · exact le_trans (min_le_left _ _) (by norm_num)
    · intro hc _ _; exact absurd h1 hc
  · refine ⟨by simp, append_ne_empty_left _ _ (by decide), by norm_num, ?_, ?_⟩
    · intro hc _; exact absurd hc h1
    · intro _ hc _; exact absurd h2 hc
  · refine ⟨by simp, append_ne_empty_left _ _ (by decide), ?_, ?_, ?_⟩
    · exact min_le_left _ _
    · intro hc _; exact absurd hc h1
    · intro _ _ hd
      constructor
      · refine le_min (by norm_num) ?_
        have : d / 200 ≤ 1 := by linarith
        linarith
      · exact le_trans (min_le_left _ _) (by norm_num)

/-- C4 witness: at verdict THREAT with disruption score 150 the confidence is
in [0, 1] and the action and rationale invariants hold. -/
theorem voteForNvidia_invariants_witness :
    (100 : ℚ) ≤ 150
    ∧ 0 ≤ (voteForNvidia "THREAT" 150).confidence
    ∧ (voteForNvidia "THREAT" 150).confidence ≤ 1 :=
  ⟨by norm_num,
   ((voteForNvidia_invariants "THREAT" 150).2.2.2.1 rfl (by norm_num)).1,
   ((voteForNvidia_invariants "THREAT" 150).2.2.2.1 rfl (by norm_num)).2⟩

/-! ### Arbiter structure lemmas -/

lemma pmArbitrate_eq (wt : List (String × ℚ)) (votes : List Vote) (hne : votes ≠ []) :
    pmArbitrate wt votes =
      ⟨consensusActionOf (tallyVotes wt votes),
       if 0 < totalScore (tallyVotes wt votes)
         then (tallyVotes wt votes).get (consensusActionOf (tallyVotes wt votes))
              / totalScore (tallyVotes wt votes)
         else 1/2,
       tallyVotes wt votes⟩ := by
  have hemp : votes.isEmpty = false := by
    cases votes with
    | nil => exact absurd rfl hne
    | cons v vs => rfl
  simp [pmArbitrate, hemp]

lemma consensus_get_cases (s : Scores) :
    s.get (consensusActionOf s) = s.buy ∨ s.get (consensusActionOf s) = s.sell
    ∨ s.get (consensusActionOf s) = s.hold := by
  unfold consensusActionOf Scores.get
  split_ifs <;> simp

/-- C1: for a non-empty vote list the arbiter's score breakdown is exactly the
weighted sums per remapped action (weights looked up by agent id with default
0.1), the consensus action is the argmax with ties resolved by the priority
BUY > SELL > HOLD, the consensus confidence is the winning score over the
total when the total is positive, and three votes of equal weight·confidence
split across BUY/SELL/HOLD resolve to BUY. -/
theorem pm_arbitrate_spec (wt : List (String × ℚ)) (votes : List Vote)
    (hne : votes ≠ []) :
    ((pmArbitrate wt votes).vote_distribution.buy = scoreSpec wt votes "BUY"
      ∧ (pmArbitrate wt votes).vote_distribution.sell = scoreSpec wt votes "SELL"
      ∧ (pmArbitrate wt votes).vote_distribution.hold = scoreSpec wt votes "HOLD")
    ∧ ((tallyVotes wt votes).sell ≤ (tallyVotes wt votes).buy →
        (tallyVotes wt votes).hold ≤ (tallyVotes wt votes).buy →
        (pmArbitrate wt votes).consensus_action = "BUY")
    ∧ ((tallyVotes wt votes).buy < (tallyVotes wt votes).sell →
        (tallyVotes wt votes).hold ≤ (tallyVotes wt votes).sell →
        (pmArbitrate wt votes).consensus_action = "SELL")
    ∧ ((tallyVotes wt votes).buy < (tallyVotes wt votes).hold →
        (tallyVotes wt votes).sell < (tallyVotes wt votes).hold →
        (pmArbitrate wt votes).consensus_action = "HOLD")
    ∧ (0 < totalScore (tallyVotes wt votes) →
        (pmArbitrate wt votes).consensus_confidence =
          (tallyVotes wt votes).get (pmArbitrate wt votes).consensus_action
            / totalScore (tallyVotes wt votes))
    ∧ (∀ (g₁ g₂ g₃ : String) (c : ℚ),
        lookupWeight wt g₁ * c = lookupWeight wt g₂ * c →
        lookupWeight wt g₂ * c = lookupWeight wt g₃ * c →
        (pmArbitrate wt [⟨g₁, "BUY", c⟩, ⟨g₂, "SELL", c⟩, ⟨g₃, "HOLD", c⟩]).consensus_action
          = "BUY") := by
  have harb := pmArbitrate_eq wt votes hne
  refine ⟨⟨?_, ?_, ?_⟩, ?_, ?_, ?_, ?_, ?_⟩
  · rw [harb]; exact tallyVotes_buy wt votes
  · rw [harb]; exact tallyVotes_sell wt votes
  · rw [harb]; exact tallyVotes_hold wt votes
  · intro h1 h2
    rw [harb]
    show consensusActionOf (tallyVotes wt votes) = "BUY"
    unfold consensusActionOf
    split_ifs <;> first | rfl | linarith
  · intro h1 h2
    rw [harb]
    show consensusActionOf (tallyVotes wt votes) = "SELL"
    unfold consensusActionOf
    split_ifs <;> first | rfl | linarith
  · intro h1 h2
    rw [harb]
    show consensusActionOf (tallyVotes wt votes) = "HOLD"
    unfold consensusActionOf
    by_cases hA : (tallyVotes wt votes).sell > (tallyVotes wt votes).buy
    · rw [if_pos hA,
        if_pos (show (tallyVotes wt votes).hold > (tallyVotes wt votes).sell by linarith)]
    · rw [if_neg hA,
        if_pos (show (tallyVotes wt votes).hold > (tallyVotes wt votes).buy by linarith)]
  · intro h
    rw [harb]
    simp [h]
  · intro g₁ g₂ g₃ c h12 h23
    have e13 : lookupWeight wt g₁ * c = lookupWeight wt g₃ * c := h12.trans h23
    have ht : tallyVotes wt [⟨g₁, "BUY", c⟩, ⟨g₂, "SELL", c⟩, ⟨g₃, "HOLD", c⟩]
        = ⟨lookupWeight wt g₁ * c, lookupWeight wt g₂ * c, lookupWeight wt g₃ * c⟩ := by
      simp [tallyVotes, addVote, remapAction]
    rw [pmArbitrate_eq wt _ (by simp), ht]
    show consensusActionOf _ = "BUY"
    unfold consensusActionOf
    rw [← h12, ← e13]
    simp

/-- C1 witness: a single weighted BUY vote resolves to BUY, and a concrete
even three-way split (all agents at the default weight, confidence 1)
resolves to BUY by the tie-break. -/
theorem pm_arbitrate_spec_witness :
    (pmArbitrate voteWeights [⟨"trader", "BUY", 1⟩]).consensus_action = "BUY"
    ∧ (pmArbitrate voteWeights
        [⟨"a", "BUY", 1⟩, ⟨"a", "SELL", 1⟩, ⟨"a", "HOLD", 1⟩]).consensus_action = "BUY" := by
  constructor
  · refine (pm_arbitrate_spec voteWeights [⟨"trader", "BUY", 1⟩] (by simp)).2.1 ?_ ?_ <;>
      norm_num [tallyVotes, addVote, remapAction, lookupWeight, voteWeights, List.find?]
  · exact (pm_arbitrate_spec voteWeights [⟨"trader", "BUY", 1⟩] (by simp)).2.2.2.2.2
      "a" "a" "a" 1 rfl rfl

/-- C10 (implicit): with non-negative vote confidences and non-negative
configured weights, every per-action score is non-negative and the consensus
confidence lies in [0, 1], being either the winning score over the total or
the 0.5 default. -/
theorem pm_confidence_bounds (wt : List (String × ℚ)) (votes : List Vote)
    (hv : ∀ v ∈ votes, 0 ≤ v.confidence) (hw : ∀ p ∈ wt, 0 ≤ p.2) :
    0 ≤ (tallyVotes wt votes).buy ∧ 0 ≤ (tallyVotes wt votes).sell
    ∧ 0 ≤ (tallyVotes wt votes).hold
    ∧ 0 ≤ (pmArbitrate wt votes).consensus_confidence
    ∧ (pmArbitrate wt votes).consensus_confidence ≤ 1
    ∧ ((pmArbitrate wt votes).consensus_confidence
        = (tallyVotes wt votes).get (pmArbitrate wt votes).consensus_action
            / totalScore (tallyVotes wt votes)
      ∨ (pmArbitrate wt votes).consensus_confidence = 1/2) := by
  have hb : 0 ≤ (tallyVotes wt votes).buy := by
    rw [tallyVotes_buy]; exact scoreSpec_nonneg wt votes hv hw _
  have hs : 0 ≤ (tallyVotes wt votes).sell := by
    rw [tallyVotes_sell]; exact scoreSpec_nonneg wt votes hv hw _
  have hh : 0 ≤ (tallyVotes wt votes).hold := by
    rw [tallyVotes_hold]; exact scoreSpec_nonneg wt votes hv hw _
  by_cases hne : votes = []
  · refine ⟨hb, hs, hh, ?_, ?_, Or.inr ?_⟩ <;> subst hne <;> norm_num [pmArbitrate]
  · have harb := pmArbitrate_eq wt votes hne
    have hget : 0 ≤ (tallyVotes wt votes).get (consensusActionOf (tallyVotes wt votes))
        ∧ (tallyVotes wt votes).get (consensusActionOf (tallyVotes wt votes))
            ≤ totalScore (tallyVotes wt votes) := by
      rcases consensus_get_cases (tallyVotes wt votes) with hg | hg | hg <;>
        rw [hg] <;> unfold totalScore <;> constructor <;> linarith
    by_cases ht : 0 < totalScore (tallyVotes wt votes)
    · have hc : (pmArbitrate wt votes).consensus_confidence
          = (tallyVotes wt votes).get (consensusActionOf (tallyVotes wt votes))
            / totalScore (tallyVotes wt votes) := by
        rw [harb]; simp only [if_pos ht]
      have hca : (pmArbitrate wt votes).consensus_action
          = consensusActionOf (tallyVotes wt votes) := by rw [harb]
      refine ⟨hb, hs, hh, ?_, ?_, Or.inl ?_⟩
      · rw [hc]; exact div_nonneg hget.1 ht.le
      · rw [hc, div_le_one ht]; exact hget.2
      · rw [hc, hca]
    · have hc : (pmArbitrate wt votes).consensus_confidence = 1/2 := by
        rw [harb]; simp only [if_neg ht]
      refine ⟨hb, hs, hh, ?_, ?_, Or.inr hc⟩ <;> rw [hc] <;> norm_num

/-- C10 witness: the confidence bounds at a concrete vote list and the
configured weight table. -/
theorem pm_confidence_bounds_witness :
    0 ≤ (pmArbitrate voteWeights [⟨"trader", "BUY", 1⟩]).consensus_confidence
    ∧ (pmArbitrate voteWeights [⟨"trader", "BUY", 1⟩]).consensus_confidence ≤ 1 := by
  have h := pm_confidence_bounds voteWeights [⟨"trader", "BUY", 1⟩]
    (by norm_num) (by norm_num [voteWeights])
  exact ⟨h.2.2.2.1, h.2.2.2.2.1⟩

/-! ### Risk-flow step lemmas: the guard disables a block entirely, and each
block treats the accumulated confidence boost purely additively. -/

lemma sharpeStep_false (sh : Option ℚ) (st : RiskState) : sharpeStep false sh st = st := by
  cases sh <;> rfl

lemma varStep_false (v : Option VarResult) (st : RiskState) : varStep false v st = st := by
  cases v <;> rfl

lemma decisionStep_false (sh : Option ℚ) (vol beta mdd : ℚ) (st : RiskState) :
    decisionStep false sh vol beta mdd st = st := rfl

lemma sharpeStep_boost (g : Bool) (sh : Option ℚ) (st : RiskState) (δ : ℚ) :
    sharpeStep g sh ⟨st.action, st.confidence, st.boost + δ⟩ =
      ⟨(sharpeStep g sh st).action, (sharpeStep g sh st).confidence,
        (sharpeStep g sh st).boost + δ⟩ := by
  cases sh with
  | none => rfl
  | some sr =>
    simp only [sharpeStep]
    split_ifs <;> refine RiskState.ext ?_ ?_ ?_ <;> first | rfl | ring

lemma varStep_boost (g : Bool) (v : Option VarResult) (st : RiskState) (δ : ℚ) :
    varStep g v ⟨st.action, st.confidence, st.boost + δ⟩ =
      ⟨(varStep g v st).action, (varStep g v st).confidence,
        (varStep g v st).boost + δ⟩ := by
  cases v with
  | none => rfl
  | some va =>
    simp only [varStep]
    split_ifs <;> refine RiskState.ext ?_ ?_ ?_ <;> first | rfl | ring

lemma decisionStep_boost (g : Bool) (sh : Option ℚ) (vol beta mdd : ℚ)
    (st : RiskState) (δ : ℚ) :
    decisionStep g sh vol beta mdd ⟨st.action, st.confidence, st.boost + δ⟩ =
      ⟨(decisionStep g sh vol beta mdd st).action,
        (decisionStep g sh vol beta mdd st).confidence,
        (decisionStep g sh vol beta mdd st).boost + δ⟩ := by
  cases sh with
  | none =>
    simp only [decisionStep]
    split_ifs <;> refine RiskState.ext ?_ ?_ ?_ <;> rfl
  | some sr =>
    simp only [decisionStep]
    split_ifs <;> refine RiskState.ext ?_ ?_ ?_ <;> first | rfl | ring

lemma riskPipeline_boost (g : Bool) (sh : Option ℚ) (v : Option VarResult)
    (vol beta mdd : ℚ) (st : RiskState) (δ : ℚ) :
    decisionStep g sh vol beta mdd
        (varStep g v (sharpeStep g sh ⟨st.action, st.confidence, st.boost + δ⟩)) =
      ⟨(decisionStep g sh vol beta mdd (varStep g v (sharpeStep g sh st))).action,
       (decisionStep g sh vol beta mdd (varStep g v (sharpeStep g sh st))).confidence,
       (decisionStep g sh vol beta mdd (varStep g v (sharpeStep g sh st))).boost + δ⟩ := by
  rw [sharpeStep_boost, varStep_boost, decisionStep_boost]

lemma cds_level_of_lt_200 (s : ℚ) (h : s < 200) :
    (analyzeCdsPremium s).credit_risk_level = "LOW"
    ∨ (analyzeCdsPremium s).credit_risk_level = "MODERATE" := by
  unfold analyzeCdsPremium
  split_ifs with h1
  · exact Or.inl rfl
  · exact Or.inr rfl

lemma cds_level_of_ge_500 (s : ℚ) (h : 500 ≤ s) :
    (analyzeCdsPremium s).credit_risk_level = "CRITICAL" := by
  unfold analyzeCdsPremium
  split_ifs with h1 h2 h3
  · linarith
  · linarith
  · linarith
  · rfl

/-- C5: the CDS spread classification bands are LOW below 100 bps, MODERATE
in [100, 200), HIGH in [200, 500) and CRITICAL at or above 500, with fixed
confidence modifiers +0.10 and 0.00 for LOW and MODERATE; a CRITICAL spread
forces the risk scorer's action to SELL (at confidence 0.90) regardless of
every other signal in the bundle, while a LOW or MODERATE spread leaves the
action and pre-clamp confidence identical to a run without CDS data and only
adds the fixed modifier to the confidence boost. -/
theorem cds_risk_spec (s : ℚ) (sharpeOf : List ℚ → ℚ)
    (volatility beta maxDrawdown : ℚ) (returns : List ℚ) :
    (s < 100 → (analyzeCdsPremium s).credit_risk_level = "LOW"
        ∧ (analyzeCdsPremium s).confidence_modifier = 1/10)
    ∧ (100 ≤ s → s < 200 → (analyzeCdsPremium s).credit_risk_level = "MODERATE"
        ∧ (analyzeCdsPremium s).confidence_modifier = 0)
    ∧ (200 ≤ s → s < 500 → (analyzeCdsPremium s).credit_risk_level = "HIGH")
    ∧ (500 ≤ s → (analyzeCdsPremium s).credit_risk_level = "CRITICAL")
    ∧ (500 ≤ s →
        (riskAnalyze sharpeOf volatility beta maxDrawdown returns (some s)).action = "SELL"
        ∧ (riskAnalyze sharpeOf volatility beta maxDrawdown returns (some s)).confidence
            = 9/10)
    ∧ (s < 200 →
        (riskAnalyze sharpeOf volatility beta maxDrawdown returns (some s)).action
          = (riskAnalyze sharpeOf volatility beta maxDrawdown returns none).action
        ∧ (riskDecision sharpeOf volatility beta maxDrawdown returns (some s)).confidence
          = (riskDecision sharpeOf volatility beta maxDrawdown returns none).confidence
        ∧ (riskDecision sharpeOf volatility beta maxDrawdown returns (some s)).boost
          = (riskDecision sharpeOf volatility beta maxDrawdown returns none).boost
            + (analyzeCdsPremium s).confidence_modifier) := by
  refine ⟨?_, ?_, ?_, cds_level_of_ge_500 s, ?_, ?_⟩
  · intro h
    unfold analyzeCdsPremium
    split_ifs
    exact ⟨rfl, rfl⟩
  · intro hge h
    unfold analyzeCdsPremium
    split_ifs with h1
    · linarith
    · exact ⟨rfl, rfl⟩
  · intro hge h
    unfold analyzeCdsPremium
    split_ifs with h1 h2
    · linarith
    · linarith
    · rfl
  · intro h
    have hlev := cds_level_of_ge_500 s h
    have hguard : cdsGuard (some s) = false := by simp [cdsGuard, hlev]
    have hcs : cdsStep (some s) ⟨"HOLD", 1/2, 0⟩ = ⟨"SELL", 9/10, 0⟩ := by
      simp [cdsStep, hlev]
    have hD : riskDecision sharpeOf volatility beta maxDrawdown returns (some s)
        = ⟨"SELL", 9/10, 0⟩ := by
      simp only [riskDecision, hguard, hcs, sharpeStep_false, varStep_false,
        decisionStep_false]
    constructor
    · simp only [riskAnalyze, hD]
    · simp only [riskAnalyze, hD]
      norm_num
  · intro h
    have hNC : (analyzeCdsPremium s).credit_risk_level ≠ "CRITICAL" := by
      rcases cds_level_of_lt_200 s h with hl | hl <;> rw [hl] <;> decide
    have hNH : (analyzeCdsPremium s).credit_risk_level ≠ "HIGH" := by
      rcases cds_level_of_lt_200 s h with hl | hl <;> rw [hl] <;> decide
    have hguard : cdsGuard (some s) = true := by
      simp [cdsGuard, bne_iff_ne, hNC, hNH]
    have hcs : cdsStep (some s) ⟨"HOLD", 1/2, 0⟩
        = ⟨"HOLD", 1/2, 0 + (analyzeCdsPremium s).confidence_modifier⟩ := by
      simp [cdsStep, hNC, hNH]
    have hD : riskDecision sharpeOf volatility beta maxDrawdown returns (some s)
        = ⟨(riskDecision sharpeOf volatility beta maxDrawdown returns none).action,
           (riskDecision sharpeOf volatility beta maxDrawdown returns none).confidence,
           (riskDecision sharpeOf volatility beta maxDrawdown returns none).boost
             + (analyzeCdsPremium s).confidence_modifier⟩ := by
      simp only [riskDecision, hguard, hcs]
      exact riskPipeline_boost true _ _ volatility beta maxDrawdown ⟨"HOLD", 1/2, 0⟩ _
    exact ⟨by simp only [riskAnalyze, hD], by rw [hD], by rw [hD]⟩

/-- C5 witness: at spread 600 the classification is CRITICAL and the scorer
returns SELL at 0.90 on a concrete bundle of otherwise-positive signals
(low volatility, no drawdown); at spread 50 the classification is LOW with
modifier +0.10. -/
theorem cds_risk_spec_witness :
    (500 : ℚ) ≤ 600
    ∧ (analyzeCdsPremium 600).credit_risk_level = "CRITICAL"
    ∧ (riskAnalyze (fun _ => 2) (1/10) 1 0 [] (some 600)).action = "SELL"
    ∧ (riskAnalyze (fun _ => 2) (1/10) 1 0 [] (some 600)).confidence = 9/10
    ∧ (50 : ℚ) < 100
    ∧ (analyzeCdsPremium 50).credit_risk_level = "LOW"
    ∧ (analyzeCdsPremium 50).confidence_modifier = 1/10 := by
  have h6 := cds_risk_spec 600 (fun _ => 2) (1/10) 1 0 []
  have h5 := cds_risk_spec 50 (fun _ => 2) (1/10) 1 0 []
  refine ⟨by norm_num, h6.2.2.2.1 (by norm_num), (h6.2.2.2.2.1 (by norm_num)).1,
    (h6.2.2.2.2.1 (by norm_num)).2, by norm_num, (h5.1 (by norm_num)).1,
    (h5.1 (by norm_num)).2⟩

/-! ### Sorting and percentile lemmas for the VaR calculator -/

lemma insertAsc_perm (x : ℚ) (l : List ℚ) : List.Perm (insertAsc x l) (x :: l) := by
  induction l with
  | nil => rfl
  | cons y ys ih =>
    unfold insertAsc
    split_ifs with h
    · rfl
    · exact ((ih.cons y).trans (List.Perm.swap x y ys))

lemma sortAsc_perm (l : List ℚ) : List.Perm (sortAsc l) l := by
  induction l with
  | nil => rfl
  | cons x xs ih => exact (insertAsc_perm x (sortAsc xs)).trans (ih.cons x)

lemma insertAsc_sorted (x : ℚ) (l : List ℚ) (h : l.Sorted (· ≤ ·)) :
    (insertAsc x l).Sorted (· ≤ ·) := by
  induction l with
  | nil => simp [insertAsc]
  | cons y ys ih =>
    rw [List.sorted_cons] at h
    unfold insertAsc
    split_ifs with hxy
    · rw [List.sorted_cons]
      refine ⟨?_, List.sorted_cons.mpr h⟩
      intro b hb
      rcases List.mem_cons.mp hb with hb | hb
      · exact hb ▸ hxy
      · exact le_trans hxy (h.1 b hb)
    · rw [List.sorted_cons]
      refine ⟨?_, ih h.2⟩
      intro b hb
      have hb2 : b = x ∨ b ∈ ys := List.mem_cons.mp ((insertAsc_perm x ys).mem_iff.mp hb)
      rcases hb2 with rfl | hb2
      · exact le_of_lt (lt_of_not_le hxy)
      · exact h.1 b hb2

lemma sortAsc_sorted (l : List ℚ) : (sortAsc l).Sorted (· ≤ ·) := by
  induction l with
  | nil => simp [sortAsc]
  | cons x xs ih => exact insertAsc_sorted x (sortAsc xs) ih

lemma percentile_exists_le (l : List ℚ) (hne : l ≠ []) (q : ℚ)
    (hq0 : 0 ≤ q) (hq1 : q ≤ 100) : ∃ m ∈ l, m ≤ percentile l q := by
  have hperm := sortAsc_perm l
  have hsort := sortAsc_sorted l
  have hn : 0 < (sortAsc l).length := by
    rw [hperm.length_eq]
    exact List.length_pos.mpr hne
  have hn0 : (sortAsc l).length ≠ 0 := Nat.pos_iff_ne_zero.mp hn
  set n := (sortAsc l).length with hndef
  set rank : ℚ := q / 100 * ((n : ℚ) - 1) with hrankdef
  set lower : ℕ := (⌊rank⌋).toNat with hlowerdef
  have hrank0 : 0 ≤ rank := by
    apply mul_nonneg (by positivity)
    have : (1 : ℚ) ≤ (n : ℚ) := by exact_mod_cast hn
    linarith
  have hfloor0 : 0 ≤ ⌊rank⌋ := Int.floor_nonneg.mpr hrank0
  have hcast : (lower : ℚ) = (⌊rank⌋ : ℚ) := by
    rw [hlowerdef]
    exact_mod_cast Int.toNat_of_nonneg hfloor0
  have hfrac0 : 0 ≤ rank - (lower : ℚ) := by
    rw [hcast]
    have := Int.floor_le rank
    linarith
  have hrank_le : rank ≤ (n : ℚ) - 1 := by
    rw [hrankdef]
    have h1 : q / 100 ≤ 1 := by
      rw [div_le_one (by norm_num : (0:ℚ) < 100)]
      linarith
    have h2 : (0 : ℚ) ≤ (n : ℚ) - 1 := by
      have : (1 : ℚ) ≤ (n : ℚ) := by exact_mod_cast hn
      linarith
    nlinarith
  have hlower_lt : lower < n := by
    have h1 : (lower : ℚ) ≤ (n : ℚ) - 1 := by
      rw [hcast]
      exact le_trans (Int.floor_le rank) hrank_le
    have h3 : (lower : ℚ) < (n : ℚ) := by linarith
    exact_mod_cast h3
  have hper : percentile l q
      = (sortAsc l).getD lower 0
        + (rank - (lower : ℚ))
          * ((sortAsc l).getD (lower + 1) ((sortAsc l).getD lower 0)
             - (sortAsc l).getD lower 0) := by
    simp only [percentile]
    rw [if_neg hn0]
  have hget : (sortAsc l).getD lower 0 ∈ sortAsc l := by
    rw [List.getD_eq_getElem _ _ hlower_lt]
    exact List.getElem_mem hlower_lt
  refine ⟨(sortAsc l).getD lower 0, hperm.mem_iff.mp hget, ?_⟩
  rw [hper]
  have hhi : (sortAsc l).getD lower 0
      ≤ (sortAsc l).getD (lower + 1) ((sortAsc l).getD lower 0) := by
    by_cases hlt : lower + 1 < n
    · rw [List.getD_eq_getElem _ _ hlower_lt, List.getD_eq_getElem _ _ hlt]
      exact List.Sorted.rel_get_of_lt hsort
        (show (⟨lower, hlower_lt⟩ : Fin (sortAsc l).length) < ⟨lower + 1, hlt⟩ from
          Fin.mk_lt_mk.mpr (Nat.lt_succ_self lower))
    · rw [List.getD_eq_default _ _ (by omega : (sortAsc l).length ≤ lower + 1)]
  nlinarith [mul_nonneg hfrac0 (sub_nonneg.mpr hhi)]

lemma getD_replicate (c d : ℚ) (n i : ℕ) (h : i < n) :
    (List.replicate n c).getD i d = c := by
  rw [List.getD_eq_getElem?_getD, List.getElem?_eq_getElem (by simpa using h)]
  simp

lemma insertAsc_replicate (c : ℚ) (n : ℕ) :
    insertAsc c (List.replicate n c) = List.replicate (n + 1) c := by
  induction n with
  | zero => rfl
  | succ k ih => simp [List.replicate_succ, insertAsc]

lemma sortAsc_replicate (c : ℚ) (n : ℕ) :
    sortAsc (List.replicate n c) = List.replicate n c := by
  induction n with
  | zero => rfl
  | succ k ih =>
    rw [List.replicate_succ, sortAsc, ih, insertAsc_replicate]
    rfl

lemma percentile_replicate : percentile (List.replicate 30 ((1:ℚ)/100)) 5 = 1/100 := by
  have hfl : ⌊(5:ℚ)/100 * (((30:ℕ) : ℚ) - 1)⌋ = 1 := by
    rw [show (5:ℚ)/100 * (((30:ℕ):ℚ) - 1) = 29/20 by norm_num]
    rw [Int.floor_eq_iff]
    norm_num
  simp only [percentile, sortAsc_replicate, List.length_replicate]
  rw [if_neg (by norm_num : (30 : ℕ) ≠ 0), hfl,
    getD_replicate _ _ _ _ (by norm_num : (1:ℤ).toNat < 30),
    getD_replicate _ _ _ _ (by norm_num : (1:ℤ).toNat + 1 < 30)]
  norm_num

lemma calculateVar_replicate :
    calculateVar (List.replicate 30 ((1:ℚ)/100)) (19/20) = ⟨1/100, 1/100, false⟩ := by
  have h30 : ¬ (List.replicate 30 ((1:ℚ)/100)).length < 30 := by simp
  have hp : (1 - (19:ℚ)/20) * 100 = 5 := by norm_num
  have hfil : (List.replicate 30 ((1:ℚ)/100)).filter (fun r => r ≤ (1:ℚ)/100)
      = List.replicate 30 ((1:ℚ)/100) := by
    apply List.filter_eq_self.mpr
    intro a ha
    rw [decide_eq_true_eq, List.eq_of_mem_replicate ha]
  simp only [calculateVar]
  rw [if_neg h30, hp, percentile_replicate, hfil]
  norm_num [List.sum_replicate]

/-- C8: with fewer than 30 observations the VaR calculator returns 0.0 for
both VaR and CVaR with the insufficient-data marker and raises no error; with
at least 30 observations the 1-day VaR at level 0.95 is the 5th percentile of
the sample and the CVaR is the mean of the (never empty) set of returns at or
below that VaR; the 10-day VaR is the 1-day VaR scaled by √10; and on 30
returns all equal to 0.01 both the 1-day VaR and the CVaR equal 0.01. -/
theorem calculateVar_spec (returns : List ℚ) :
    (returns.length < 30 → calculateVar returns (19/20) = ⟨0, 0, true⟩)
    ∧ (30 ≤ returns.length →
        (calculateVar returns (19/20)).var_1day = percentile returns 5
        ∧ (calculateVar returns (19/20)).insufficient = false
        ∧ returns.filter (fun r => r ≤ percentile returns 5) ≠ []
        ∧ (calculateVar returns (19/20)).cvar
            = (returns.filter (fun r => r ≤ percentile returns 5)).sum
              / ((returns.filter (fun r => r ≤ percentile returns 5)).length : ℚ))
    ∧ var10day returns (19/20)
        = ((calculateVar returns (19/20)).var_1day : ℝ) * Real.sqrt 10
    ∧ (calculateVar (List.replicate 30 ((1:ℚ)/100)) (19/20)).var_1day = 1/100
    ∧ (calculateVar (List.replicate 30 ((1:ℚ)/100)) (19/20)).cvar = 1/100 := by
  refine ⟨?_, ?_, rfl, by rw [calculateVar_replicate], by rw [calculateVar_replicate]⟩
  · intro h
    unfold calculateVar
    rw [if_pos h]
  · intro h
    have h30 : ¬ returns.length < 30 := by omega
    have hp : (1 - (19:ℚ)/20) * 100 = 5 := by norm_num
    have hne : returns ≠ [] := by
      intro he
      rw [he] at h
      simp at h
    obtain ⟨m, hm, hmle⟩ := percentile_exists_le returns hne 5 (by norm_num) (by norm_num)
    have htail : m ∈ returns.filter (fun r => r ≤ percentile returns 5) := by
      rw [List.mem_filter]
      exact ⟨hm, by simpa using hmle⟩
    have htne : returns.filter (fun r => r ≤ percentile returns 5) ≠ [] :=
      List.ne_nil_of_mem htail
    have hlen0 : (returns.filter (fun r => r ≤ percentile returns 5)).length ≠ 0 := by
      simpa [List.length_eq_zero] using htne
    have hcalc : calculateVar returns (19/20)
        = ⟨percentile returns 5,
           if (returns.filter (fun r => r ≤ percentile returns 5)).length = 0
             then percentile returns 5
             else (returns.filter (fun r => r ≤ percentile returns 5)).sum
               / ((returns.filter (fun r => r ≤ percentile returns 5)).length : ℚ),
           false⟩ := by
      simp only [calculateVar]
      rw [if_neg h30, hp]
    refine ⟨by rw [hcalc], by rw [hcalc], htne, ?_⟩
    rw [hcalc]
    simp only
    rw [if_neg hlen0]

/-- C8 witness: the percentile/CVaR characterization instantiated on the
30-sample flat return series, and the insufficient-data sentinel on an empty
sample. -/
theorem calculateVar_spec_witness :
    30 ≤ (List.replicate 30 ((1:ℚ)/100)).length
    ∧ (calculateVar (List.replicate 30 ((1:ℚ)/100)) (19/20)).var_1day
        = percentile (List.replicate 30 ((1:ℚ)/100)) 5
    ∧ calculateVar [] (19/20) = ⟨0, 0, true⟩ :=
  ⟨by simp,
   ((calculateVar_spec (List.replicate 30 ((1:ℚ)/100))).2.1 (by simp)).1,
   (calculateVar_spec []).1 (by decide)⟩

/-! ### Lemmas for the pivot support/resistance function -/

lemma maxQ_eq_none (l : List ℚ) : maxQ l = none ↔ l = [] := by
  cases l with
  | nil => simp [maxQ]
  | cons x xs =>
    cases h : maxQ xs <;> simp [maxQ, h]

lemma maxQ_eq_some_iff (l : List ℚ) : ∀ m : ℚ,
    maxQ l = some m ↔ m ∈ l ∧ ∀ x ∈ l, x ≤ m := by
  induction l with
  | nil => simp [maxQ]
  | cons x xs ih =>
    intro m
    cases h : maxQ xs with
    | none =>
      have hxs : xs = [] := (maxQ_eq_none xs).mp h
      subst hxs
      simp only [maxQ, Option.some_inj, List.mem_singleton, List.mem_cons,
        List.not_mem_nil, or_false]
      constructor
      · rintro rfl
        exact ⟨rfl, fun y hy => le_of_eq hy⟩
      · rintro ⟨rfl, _⟩
        rfl
    | some m' =>
      obtain ⟨hmem, hmax⟩ := (ih m').mp h
      simp only [maxQ, h, Option.some_inj]
      constructor
      · rintro rfl
        refine ⟨?_, ?_⟩
        · rcases le_total x m' with hc | hc
          · rw [max_eq_right hc]
            exact List.mem_cons_of_mem x hmem
          · rw [max_eq_left hc]
            exact List.mem_cons_self x xs
        · intro y hy
          rcases List.mem_cons.mp hy with rfl | hy
          · exact le_max_left _ _
          · exact le_trans (hmax y hy) (le_max_right _ _)
      · rintro ⟨hmem2, hmax2⟩
        apply le_antisymm
        · exact max_le (hmax2 x (List.mem_cons_self x xs))
            (le_trans (le_refl m') (hmax2 m' (List.mem_cons_of_mem x hmem)))
        · rcases List.mem_cons.mp hmem2 with rfl | hmem2
          · exact le_max_left _ _
          · exact le_trans (hmax m hmem2) (le_max_right _ _)

lemma minQ_eq_none (l : List ℚ) : minQ l = none ↔ l = [] := by
  cases l with
  | nil => simp [minQ]
  | cons x xs =>
    cases h : minQ xs <;> simp [minQ, h]

lemma minQ_eq_some_iff (l : List ℚ) : ∀ m : ℚ,
    minQ l = some m ↔ m ∈ l ∧ ∀ x ∈ l, m ≤ x := by
  induction l with
  | nil => simp [minQ]
  | cons x xs ih =>
    intro m
    cases h : minQ xs with
    | none =>
      have hxs : xs = [] := (minQ_eq_none xs).mp h
      subst hxs
      simp only [minQ, Option.some_inj, List.mem_singleton, List.mem_cons,
        List.not_mem_nil, or_false]
      constructor
      · rintro rfl
        exact ⟨rfl, fun y hy => le_of_eq hy.symm⟩
      · rintro ⟨rfl, _⟩
        rfl
    | some m' =>
      obtain ⟨hmem, hmin⟩ := (ih m').mp h
      simp only [minQ, h, Option.some_inj]
      constructor
      · rintro rfl
        refine ⟨?_, ?_⟩
        · rcases le_total x m' with hc | hc
          · rw [min_eq_left hc]
            exact List.mem_cons_self x xs
          · rw [min_eq_right hc]
            exact List.mem_cons_of_mem x hmem
        · intro y hy
          rcases List.mem_cons.mp hy with rfl | hy
          · exact min_le_left _ _
          · exact le_trans (min_le_right _ _) (hmin y hy)
      · rintro ⟨hmem2, hmin2⟩
        apply le_antisymm
        · rcases List.mem_cons.mp hmem2 with rfl | hmem2
          · exact min_le_left _ _
          · exact le_trans (min_le_right _ _) (hmin m hmem2)
        · exact le_min (hmin2 x (List.mem_cons_self x xs))
            (hmin2 m' (List.mem_cons_of_mem x hmem))

lemma insertDesc_perm (x : ℚ) (l : List ℚ) : List.Perm (insertDesc x l) (x :: l) := by
  induction l with
  | nil => rfl
  | cons y ys ih =>
    unfold insertDesc
    split_ifs with h
    · rfl
    · exact ((ih.cons y).trans (List.Perm.swap x y ys))

lemma sortDesc_perm (l : List ℚ) : List.Perm (sortDesc l) l := by
  induction l with
  | nil => rfl
  | cons x xs ih => exact (insertDesc_perm x (sortDesc xs)).trans (ih.cons x)

lemma insertDesc_sorted (x : ℚ) (l : List ℚ) (h : l.Pairwise (· ≥ ·)) :
    (insertDesc x l).Pairwise (· ≥ ·) := by
  induction l with
  | nil => simp [insertDesc]
  | cons y ys ih =>
    rw [List.pairwise_cons] at h
    unfold insertDesc
    split_ifs with hyx
    · rw [List.pairwise_cons]
      refine ⟨?_, List.pairwise_cons.mpr h⟩
      intro b hb
      rcases List.mem_cons.mp hb with rfl | hb
      · exact le_of_lt hyx
      · exact le_trans (h.1 b hb) (le_of_lt hyx)
    · rw [List.pairwise_cons]
      refine ⟨?_, ih h.2⟩
      intro b hb
      have hb2 : b = x ∨ b ∈ ys := List.mem_cons.mp ((insertDesc_perm x ys).mem_iff.mp hb)
      rcases hb2 with rfl | hb2
      · exact le_of_not_lt hyx
      · exact h.1 b hb2

lemma sortDesc_sorted (l : List ℚ) : (sortDesc l).Pairwise (· ≥ ·) := by
  induction l with
  | nil => simp [sortDesc]
  | cons x xs ih => exact insertDesc_sorted x (sortDesc xs) ih

lemma sortDesc_strict (xs : List ℚ) : (sortDesc xs.dedup).Pairwise (· > ·) := by
  have h1 := sortDesc_sorted xs.dedup
  have h2 : (sortDesc xs.dedup).Nodup :=
    ((sortDesc_perm xs.dedup).nodup_iff).mpr (List.nodup_dedup xs)
  exact (List.Pairwise.and h1 h2).imp fun hab => lt_of_le_of_ne hab.1 hab.2.symm

lemma topLevels_length (xs : List ℚ) : (topLevels xs).length ≤ 3 := by
  unfold topLevels
  exact List.length_take_le 3 _

lemma topLevels_subset (xs : List ℚ) : ∀ x ∈ topLevels xs, x ∈ xs := by
  intro x hx
  unfold topLevels at hx
  exact List.mem_dedup.mp ((sortDesc_perm xs.dedup).mem_iff.mp (List.mem_of_mem_take hx))

lemma topLevels_pairwise (xs : List ℚ) : (topLevels xs).Pairwise (· > ·) :=
  (sortDesc_strict xs).sublist (List.take_sublist 3 _)

lemma topLevels_largest (xs : List ℚ) :
    ∀ p ∈ xs, p ∉ topLevels xs → ∀ k ∈ topLevels xs, p < k := by
  intro p hp hnp k hk
  unfold topLevels at hnp hk
  have hp1 : p ∈ sortDesc xs.dedup :=
    (sortDesc_perm xs.dedup).mem_iff.mpr (List.mem_dedup.mpr hp)
  have hstrict := sortDesc_strict xs
  rw [← List.take_append_drop 3 (sortDesc xs.dedup)] at hstrict hp1
  have hpdrop : p ∈ (sortDesc xs.dedup).drop 3 := by
    rcases List.mem_append.mp hp1 with h | h
    · exact absurd h hnp
    · exact h
  exact (List.pairwise_append.mp hstrict).2.2 k hk p hpdrop

lemma isPivotHigh_iff (hs : List ℚ) (i : ℕ) (h5 : 5 ≤ i) :
    isPivotHigh hs i = true ↔
      ∀ j, (i - 5 ≤ j ∧ j < i) ∨ (i < j ∧ j ≤ i + 5) → hs.getD j 0 < hs.getD i 0 := by
  unfold isPivotHigh
  rw [Bool.and_eq_true, List.all_eq_true, List.all_eq_true]
  constructor
  · rintro ⟨hL, hR⟩ j hj
    rcases hj with ⟨hj1, hj2⟩ | ⟨hj1, hj2⟩
    · simpa using hL j (List.mem_range'_1.mpr ⟨hj1, by omega⟩)
    · simpa using hR j (List.mem_range'_1.mpr ⟨by omega, by omega⟩)
  · intro hall
    constructor
    · intro j hj
      have hj' := List.mem_range'_1.mp hj
      simpa using hall j (Or.inl ⟨hj'.1, by omega⟩)
    · intro j hj
      have hj' := List.mem_range'_1.mp hj
      simpa using hall j (Or.inr ⟨by omega, by omega⟩)

lemma isPivotLow_iff (ls : List ℚ) (i : ℕ) (h5 : 5 ≤ i) :
    isPivotLow ls i = true ↔
      ∀ j, (i - 5 ≤ j ∧ j < i) ∨ (i < j ∧ j ≤ i + 5) → ls.getD i 0 < ls.getD j 0 := by
  unfold isPivotLow
  rw [Bool.and_eq_true, List.all_eq_true, List.all_eq_true]
  constructor
  · rintro ⟨hL, hR⟩ j hj
    rcases hj with ⟨hj1, hj2⟩ | ⟨hj1, hj2⟩
    · simpa using hL j (List.mem_range'_1.mpr ⟨hj1, by omega⟩)
    · simpa using hR j (List.mem_range'_1.mpr ⟨by omega, by omega⟩)
  · intro hall
    constructor
    · intro j hj
      have hj' := List.mem_range'_1.mp hj
      simpa using hall j (Or.inl ⟨hj'.1, by omega⟩)
    · intro j hj
      have hj' := List.mem_range'_1.mp hj
      simpa using hall j (Or.inr ⟨by omega, by omega⟩)

/-- C7 counterexample: on 29 bars whose four pivot highs are 10, 9, 8, 7 in
time order, the detection loop finds [10, 9, 8, 7] but the function keeps
[10, 9, 8] — the three largest distinct levels — discarding the most recent
pivot level 7, so the kept levels are not the 3 most recent ones [9, 8, 7]. -/
theorem findSR_most_recent_counterexample :
    resistanceRaw exBars = [10, 9, 8, 7]
    ∧ (findSupportResistance exBars).resistance_levels = [10, 9, 8]
    ∧ (7 : ℚ) ∈ resistanceRaw exBars
    ∧ (7 : ℚ) ∉ (findSupportResistance exBars).resistance_levels
    ∧ (findSupportResistance exBars).resistance_levels ≠ [9, 8, 7] := by
  decide

/-- C7 (amended): with fewer than 11 bars the function returns the empty
sentinel record; an interior bar is detected as a pivot high (resp. low)
exactly when its high strictly exceeds (resp. its low is strictly below) the
highs (lows) of all bars within 5 positions on each side; at most 3 distinct
levels are kept per side — the 3 largest (sorted descending), not the most
recent; the nearest kept level below the last close is the support and the
nearest kept level above it is the resistance. -/
theorem findSupportResistance_spec (bars : List Bar) :
    (bars.length < 11 → findSupportResistance bars = ⟨[], [], none, none⟩)
    ∧ (∀ i ∈ pivotIdxs bars.length,
        (isPivotHigh (highsOf bars) i = true ↔
          ∀ j, (i - 5 ≤ j ∧ j < i) ∨ (i < j ∧ j ≤ i + 5) →
            (highsOf bars).getD j 0 < (highsOf bars).getD i 0))
    ∧ (∀ i ∈ pivotIdxs bars.length,
        (isPivotLow (lowsOf bars) i = true ↔
          ∀ j, (i - 5 ≤ j ∧ j < i) ∨ (i < j ∧ j ≤ i + 5) →
            (lowsOf bars).getD i 0 < (lowsOf bars).getD j 0))
    ∧ (11 ≤ bars.length →
        (findSupportResistance bars).resistance_levels.length ≤ 3
        ∧ (∀ x ∈ (findSupportResistance bars).resistance_levels, x ∈ resistanceRaw bars)
        ∧ (findSupportResistance bars).resistance_levels.Pairwise (· > ·)
        ∧ (∀ p ∈ resistanceRaw bars,
            p ∉ (findSupportResistance bars).resistance_levels →
            ∀ k ∈ (findSupportResistance bars).resistance_levels, p < k)
        ∧ (findSupportResistance bars).support_levels.length ≤ 3
        ∧ (∀ x ∈ (findSupportResistance bars).support_levels, x ∈ supportRaw bars)
        ∧ (findSupportResistance bars).support_levels.Pairwise (· > ·)
        ∧ (∀ p ∈ supportRaw bars,
            p ∉ (findSupportResistance bars).support_levels →
            ∀ k ∈ (findSupportResistance bars).support_levels, p < k))
    ∧ (11 ≤ bars.length → ∀ s : ℚ,
        ((findSupportResistance bars).nearest_support = some s ↔
          s ∈ (findSupportResistance bars).support_levels ∧ s < lastClose bars
          ∧ ∀ t ∈ (findSupportResistance bars).support_levels,
              t < lastClose bars → t ≤ s)
        ∧ ((findSupportResistance bars).nearest_resistance = some s ↔
          s ∈ (findSupportResistance bars).resistance_levels ∧ lastClose bars < s
          ∧ ∀ t ∈ (findSupportResistance bars).resistance_levels,
              lastClose bars < t → s ≤ t)) := by
  have hpiv5 : ∀ i ∈ pivotIdxs bars.length, 5 ≤ i := by
    intro i hi
    exact (List.mem_range'_1.mp hi).1
  have hF : ∀ h11 : 11 ≤ bars.length, findSupportResistance bars
      = ⟨topLevels (supportRaw bars), topLevels (resistanceRaw bars),
         maxQ ((topLevels (supportRaw bars)).filter (fun s => s < lastClose bars)),
         minQ ((topLevels (resistanceRaw bars)).filter
           (fun r => lastClose bars < r))⟩ := by
    intro h11
    unfold findSupportResistance
    rw [if_neg (by omega)]
  refine ⟨?_, ?_, ?_, ?_, ?_⟩
  · intro h
    unfold findSupportResistance
    rw [if_pos h]
  · intro i hi
    exact isPivotHigh_iff (highsOf bars) i (hpiv5 i hi)
  · intro i hi
    exact isPivotLow_iff (lowsOf bars) i (hpiv5 i hi)
  · intro h11
    rw [hF h11]
    exact ⟨topLevels_length _, topLevels_subset _, topLevels_pairwise _,
      topLevels_largest _, topLevels_length _, topLevels_subset _,
      topLevels_pairwise _, topLevels_largest _⟩
  · intro h11 s
    rw [hF h11]
    dsimp only
    constructor
    · rw [maxQ_eq_some_iff]
      simp only [List.mem_filter, decide_eq_true_eq]
      constructor
      · rintro ⟨⟨hmem, hlt⟩, hmax⟩
        exact ⟨hmem, hlt, fun t ht htlt => hmax t ⟨ht, htlt⟩⟩
      · rintro ⟨hmem, hlt, hmax⟩
        exact ⟨⟨hmem, hlt⟩, fun t ht => hmax t ht.1 ht.2⟩
    · rw [minQ_eq_some_iff]
      simp only [List.mem_filter, decide_eq_true_eq]
      constructor
      · rintro ⟨⟨hmem, hlt⟩, hmin⟩
        exact ⟨hmem, hlt, fun t ht htlt => hmin t ⟨ht, htlt⟩⟩
      · rintro ⟨hmem, hlt, hmin⟩
        exact ⟨⟨hmem, hlt⟩, fun t ht => hmin t ht.1 ht.2⟩

/-- C7 witness: the kept-level and sentinel properties instantiated on the
29-bar example and on an empty bar list. -/
theorem findSupportResistance_spec_witness :
    11 ≤ exBars.length
    ∧ (findSupportResistance exBars).resistance_levels.length ≤ 3
    ∧ findSupportResistance [] = ⟨[], [], none, none⟩ :=
  ⟨by decide,
   ((findSupportResistance_spec exBars).2.2.2.1 (by decide)).1,
   (findSupportResistance_spec []).1 (by decide)⟩
